import Mathlib

/-!
Shallow embedding of the green-energy power-control scheduler
(`src/power_control/powerControlScheduler.py`).

The scheduler (`PowerControlScheduler`) is embedded faithfully from the
source.  The node power controller (`NodePowerController`, file
`powerControl.py`) is not part of the reviewed source tree; the parts of it
that the scheduler calls (`GetAvailableNodes`, `GetNodeJobCount`,
`AddJobToNode`, `RemoveJobFromNode`) are modelled from the spec, which
defines their contract in §4.2.

Machine conventions: simulated time, energies and power are rationals
(the Python floats never overflow in the scenarios of interest and all
divisions in the spec's scenarios are exact); Python lists are Lean lists;
the per-node job-count dictionary is a total function `Nat → Nat`
(the scheduler only ever consults it on available nodes); Python's stable
`sorted` by the key `(load, node_id)` is modelled by `List.insertionSort`
with the corresponding total order — the key is injective on node ids, so
every sort agreeing with the order produces the same list.  Fatal
assertions (`assert False`) are modelled by `Option`: `none` is an aborted
handler.  Outward calls to the simulation engine (`reject_jobs`,
`execute_jobs`, `wake_me_up_at`) and to the power controller's recorder
(`RecordSystemState`) are modelled as an emitted list of `Action`s.
-/

namespace GreenEnergy

/-- Power states of a node, from spec §4.2 (the scheduler source only
distinguishes "available" nodes; the enumeration is the spec's). -/
inductive NodeState where
  | COMPUTING
  | IDLE
  | SWITCHING_TO_SLEEP
  | SLEEPING
  | WAKING_FROM_SLEEP
  | POWERING_OFF
  | POWERED_OFF
  | POWERING_ON
deriving DecidableEq, Repr

/-- Modelled from the spec: the `NodePowerController` state visible to the
scheduler (file `powerControl.py` is missing from the reviewed source).
Spec §3: a node has an integer id, a power state and a non-negative
job count. -/
structure NodePowerController where
  nodeIds : List Nat
  nodeState : Nat → NodeState
  jobCount : Nat → Nat

/-- Modelled from the spec: `GetAvailableNodes()` "returns nodes in
`COMPUTING` or `IDLE` only" (spec §4.2, §4.1 step 1). -/
def NodePowerController.GetAvailableNodes (pc : NodePowerController) : List Nat :=
  pc.nodeIds.filter fun n =>
    pc.nodeState n == NodeState.COMPUTING || pc.nodeState n == NodeState.IDLE

/-- Modelled from the spec: `GetNodeJobCount(node)` "returns current
job_count" (spec §4.2). -/
def NodePowerController.GetNodeJobCount (pc : NodePowerController) (n : Nat) : Nat :=
  pc.jobCount n

/-- Modelled from the spec: `AddJobToNode` "transitions `IDLE → COMPUTING`
(or increments load if already computing)" (spec §4.2). -/
def NodePowerController.AddJobToNode (pc : NodePowerController) (n : Nat) :
    NodePowerController :=
  { pc with
    jobCount := Function.update pc.jobCount n (pc.jobCount n + 1)
    nodeState :=
      if pc.nodeState n = NodeState.IDLE then
        Function.update pc.nodeState n NodeState.COMPUTING
      else pc.nodeState }

/-- Modelled from the spec: `RemoveJobFromNode` "decrements load and
transitions `COMPUTING → IDLE` when load reaches zero" (spec §4.2). -/
def NodePowerController.RemoveJobFromNode (pc : NodePowerController) (n : Nat) :
    NodePowerController :=
  { pc with
    jobCount := Function.update pc.jobCount n (pc.jobCount n - 1)
    nodeState :=
      if pc.jobCount n - 1 = 0 ∧ pc.nodeState n = NodeState.COMPUTING then
        Function.update pc.nodeState n NodeState.IDLE
      else pc.nodeState }

/-- A job as the scheduler sees it: engine-assigned id, requested node
count, and the allocation assigned at scheduling time (empty while
waiting). -/
structure Job where
  id : Nat
  requested_resources : Nat
  allocation : List Nat := []
deriving DecidableEq, Repr

/-- `self.record_interval = 60` (`powerControlScheduler.py`, `__init__`). -/
def record_interval : ℚ := 60

/-- `self.power_check_interval = 1800` (`powerControlScheduler.py`,
`__init__`). -/
def power_check_interval : ℚ := 1800

/-- The mutable state of `PowerControlScheduler` (plus the modelled power
controller it owns, and the engine-provided constant `nb_resources`). -/
structure SchedulerState where
  pc : NodePowerController
  nb_resources : Nat
  last_power_check : ℚ
  last_energy : ℚ
  last_energy_time : ℚ
  current_power : ℚ
  waiting_jobs : List Job
  running_jobs : List Job
  simulation_started : Bool

/-- Outward effects of one handler invocation: calls into the simulation
engine (`reject_jobs`, `execute_jobs`, `wake_me_up_at`) and into the power
controller's logging/policy entry points. -/
inductive Action where
  | rejectJobs (jobs : List Job)
  | executeJobs (jobs : List Job)
  | wakeMeUpAt (t : ℚ)
  | recordSystemState (t : ℚ) (running waiting : List Job) (power : ℚ)
  | executePowerActions
deriving DecidableEq, Repr

/-- The sort order used by `try_schedule_jobs`: Python's
`sorted(remaining_nodes, key=lambda n: (node_loads[n], n))`, i.e. the
lexicographic order on the pair (load, node id). -/
def nodeKeyLE (loads : Nat → Nat) (a b : Nat) : Prop :=
  loads a < loads b ∨ (loads a = loads b ∧ a ≤ b)

instance (loads : Nat → Nat) : DecidableRel (nodeKeyLE loads) := fun a b => by
  unfold nodeKeyLE; exact inferInstance

instance (loads : Nat → Nat) : IsTotal Nat (nodeKeyLE loads) where
  total a b := by
    unfold nodeKeyLE
    rcases Nat.lt_trichotomy (loads a) (loads b) with h | h | h
    · exact Or.inl (Or.inl h)
    · rcases Nat.le_total a b with h2 | h2
      · exact Or.inl (Or.inr ⟨h, h2⟩)
      · exact Or.inr (Or.inr ⟨h.symm, h2⟩)
    · exact Or.inr (Or.inl h)

instance (loads : Nat → Nat) : IsTrans Nat (nodeKeyLE loads) where
  trans a b c hab hbc := by
    unfold nodeKeyLE at *
    rcases hab with h1 | ⟨h1, h1'⟩
    · rcases hbc with h2 | ⟨h2, _⟩
      · exact Or.inl (h1.trans h2)
      · exact Or.inl (h2 ▸ h1)
    · rcases hbc with h2 | ⟨h2, h2'⟩
      · exact Or.inl (h1 ▸ h2)
      · exact Or.inr ⟨h1.trans h2, h1'.trans h2'⟩

/-- `sorted(remaining_nodes, key=lambda n: (node_loads[n], n))`. -/
def sortNodes (loads : Nat → Nat) (pool : List Nat) : List Nat :=
  List.insertionSort (nodeKeyLE loads) pool

/-- `sorted_nodes[:job.requested_resources]`: the nodes selected for a job
that fits. -/
def selectNodes (loads : Nat → Nat) (pool : List Nat) (k : Nat) : List Nat :=
  (sortNodes loads pool).take k

/-- The per-selected-node `node_loads[node] += 1` loop. -/
def bumpLoads (loads : Nat → Nat) (selected : List Nat) : Nat → Nat :=
  selected.foldl (fun l n => Function.update l n (l n + 1)) loads

/-- The per-selected-node `self.power_controller.AddJobToNode(node)` loop. -/
def addSelected (pc : NodePowerController) (selected : List Nat) :
    NodePowerController :=
  selected.foldl NodePowerController.AddJobToNode pc

/-- Accumulated result of the `for job in waiting_jobs_copy` loop in
`try_schedule_jobs`. -/
structure PassResult where
  jobs_to_execute : List Job
  new_waiting : List Job
  pc : NodePowerController
  node_loads : Nat → Nat
  remaining_nodes : List Nat

/-- The body of `try_schedule_jobs`' scan over the waiting queue
(`powerControlScheduler.py` lines 170–196): walk the queue once in order;
a job that fits in the remaining pool receives the `requested_resources`
least-loaded (then lowest-id) remaining nodes, which leave the pool; a job
that does not fit is retained in the new waiting queue. -/
def scheduleLoop (pc : NodePowerController) (loads : Nat → Nat)
    (remaining : List Nat) : List Job → PassResult
  | [] => ⟨[], [], pc, loads, remaining⟩
  | job :: rest =>
    if job.requested_resources ≤ remaining.length then
      let selected := selectNodes loads remaining job.requested_resources
      let r := scheduleLoop (addSelected pc selected) (bumpLoads loads selected)
        (remaining.filter fun n => decide (n ∉ selected)) rest
      { r with jobs_to_execute := { job with allocation := selected } :: r.jobs_to_execute }
    else
      let r := scheduleLoop pc loads remaining rest
      { r with new_waiting := job :: r.new_waiting }

/-- `try_schedule_jobs` (`powerControlScheduler.py` lines 143–211).
`none` models the fatal `assert False, "No available nodes"`. -/
def try_schedule_jobs (s : SchedulerState) :
    Option (SchedulerState × List Action) :=
  if s.waiting_jobs.isEmpty then some (s, [])
  else
    let available_nodes := s.pc.GetAvailableNodes
    if available_nodes.isEmpty then none
    else
      let r := scheduleLoop s.pc s.pc.GetNodeJobCount available_nodes s.waiting_jobs
      some ({ s with
              pc := r.pc
              waiting_jobs := r.new_waiting
              running_jobs := s.running_jobs ++ r.jobs_to_execute },
        if r.jobs_to_execute.isEmpty then []
        else [Action.executeJobs r.jobs_to_execute])

/-- `onJobSubmission` (`powerControlScheduler.py` lines 74–85). -/
def onJobSubmission (s : SchedulerState) (job : Job) :
    Option (SchedulerState × List Action) :=
  let s := { s with simulation_started := true }
  if s.nb_resources < job.requested_resources then
    some (s, [Action.rejectJobs [job]])
  else
    try_schedule_jobs { s with waiting_jobs := s.waiting_jobs ++ [job] }

/-- `onJobCompletion` (`powerControlScheduler.py` lines 87–99).  Note: the
membership test only guards the removal from `running_jobs`; the
`RemoveJobFromNode` notifications and the scheduling pass happen
unconditionally. -/
def onJobCompletion (s : SchedulerState) (job : Job) :
    Option (SchedulerState × List Action) :=
  let s :=
    if job ∈ s.running_jobs then
      { s with running_jobs := s.running_jobs.erase job }
    else s
  try_schedule_jobs
    { s with pc := job.allocation.foldl NodePowerController.RemoveJobFromNode s.pc }

/-- `onReportEnergyConsumed` (`powerControlScheduler.py` lines 118–131). -/
def onReportEnergyConsumed (s : SchedulerState) (now consumed_energy : ℚ) :
    SchedulerState :=
  let s :=
    if 0 < s.last_energy_time then
      if 0 < now - s.last_energy_time then
        { s with current_power :=
            (consumed_energy - s.last_energy) / (now - s.last_energy_time) }
      else s
    else s
  { s with last_energy := consumed_energy, last_energy_time := now }

/-- `onRequestedCall` (`powerControlScheduler.py` lines 48–72).  The power
policy applied by `ExecutePowerActions` lives in the missing
`powerControl.py`; spec §4.2 leaves it as "a pluggable policy", so it is a
parameter here: an arbitrary transformation of the power controller. -/
def onRequestedCall (policy : NodePowerController → NodePowerController)
    (s : SchedulerState) (now : ℚ) : SchedulerState × List Action :=
  let p :=
    if s.last_power_check + power_check_interval ≤ now then
      ({ s with pc := policy s.pc, last_power_check := now },
       [Action.executePowerActions])
    else (s, [])
  let s := p.1
  let acts := p.2 ++
    [Action.recordSystemState now s.running_jobs s.waiting_jobs s.current_power]
  if s.simulation_started ∧ s.running_jobs.isEmpty ∧ s.waiting_jobs.isEmpty then
    (s, acts)
  else
    (s, acts ++ [Action.wakeMeUpAt (now + record_interval)])

/-- One externally delivered event (spec §6, inbound events relevant to the
verified core). -/
inductive Event where
  | submit (job : Job)
  | complete (job : Job)
  | energyReport (now consumed : ℚ)
  | requestedCall (now : ℚ)
deriving DecidableEq, Repr

/-- Dispatch of one event to its handler (the engine delivers events one at
a time; spec §5). -/
def step (policy : NodePowerController → NodePowerController)
    (s : SchedulerState) : Event → Option (SchedulerState × List Action)
  | .submit j => onJobSubmission s j
  | .complete j => onJobCompletion s j
  | .energyReport t e => some (onReportEnergyConsumed s t e, [])
  | .requestedCall t => some (onRequestedCall policy s t)

/-- Run a list of events from a state; `none` once any handler hits a fatal
assertion. -/
def run (policy : NodePowerController → NodePowerController)
    (s : SchedulerState) : List Event → Option SchedulerState
  | [] => some s
  | e :: es =>
    match step policy s e with
    | none => none
    | some (s', _) => run policy s' es

/-- The state right after `onSimulationBegins` on an `n`-node cluster with
all nodes idle: empty queues, zeroed meters, `simulation_started = False`. -/
def initState (n : Nat) : SchedulerState where
  pc := ⟨List.range n, fun _ => NodeState.IDLE, fun _ => 0⟩
  nb_resources := n
  last_power_check := 0
  last_energy := 0
  last_energy_time := 0
  current_power := 0
  waiting_jobs := []
  running_jobs := []
  simulation_started := false

/-- A second rendering of the placement walk, written from the spec's words
(§4.1 step 3) rather than from the source, for a refinement comparison with
`scheduleLoop`: walk the waiting queue in its current order, once; a job
with `requested_resources ≤ |remaining pool|` takes the first
`requested_resources` nodes of the pool sorted by `(load, node_id)`
ascending, the chosen nodes' local load counters are incremented and the
chosen nodes are removed from the pool; any other job is retained in a new
waiting queue, preserving relative order, while the scan continues.
The first component is the "to execute" batch, the second the new waiting
queue. -/
def specSkipAheadWalk (loads : Nat → Nat) (pool : List Nat) :
    List Job → List Job × List Job
  | [] => ([], [])
  | job :: rest =>
    if job.requested_resources ≤ pool.length then
      let alloc :=
        (List.insertionSort (nodeKeyLE loads) pool).take job.requested_resources
      let p := specSkipAheadWalk (bumpLoads loads alloc)
        (pool.filter fun n => decide (n ∉ alloc)) rest
      ({ job with allocation := alloc } :: p.1, p.2)
    else
      let p := specSkipAheadWalk loads pool rest
      (p.1, job :: p.2)

/-- No job with id `i` is waiting or running. -/
def jobAbsent (i : Nat) (s : SchedulerState) : Bool :=
  s.waiting_jobs.all (fun j => j.id != i) && s.running_jobs.all (fun j => j.id != i)

/-- Event guard for the admission-control claim: every submission of a job
with id `i` in the trace is oversized (exceeds capacity `cap`). -/
def submitsOversizedOnly (i cap : Nat) : Event → Bool
  | .submit j => j.id != i || decide (cap < j.requested_resources)
  | _ => true

/-- Job A of the spec §8 skip-ahead scenario: needs 2 nodes. -/
def jobA : Job := { id := 1, requested_resources := 2 }

/-- Job B of the spec §8 skip-ahead scenario: needs 3 nodes. -/
def jobB : Job := { id := 2, requested_resources := 3 }

/-- Job C of the spec §8 skip-ahead scenario: needs 1 node. -/
def jobC : Job := { id := 3, requested_resources := 1 }

/-- Job D of the spec §8 rejection scenario: needs 10 nodes on a 4-node
cluster. -/
def jobD : Job := { id := 9, requested_resources := 10 }

/-- A job running on node 0, for the stale-completion scenario. -/
def jobOnNode0 : Job := { id := 2, requested_resources := 1, allocation := [0] }

/-- A job that is *not* in the running set but carries a (stale) allocation
on node 0 — e.g. a duplicated completion event after the job already
completed once. -/
def staleJob : Job := { id := 7, requested_resources := 1, allocation := [0] }

/-- A reachable 4-node state in which `jobOnNode0` runs alone on node 0:
node 0 is computing with one job, the other nodes are idle. -/
def stateC6 : SchedulerState :=
  { initState 4 with
    running_jobs := [jobOnNode0]
    pc := ⟨List.range 4,
           Function.update (fun _ => NodeState.IDLE) 0 NodeState.COMPUTING,
           Function.update (fun _ => 0) 0 1⟩
    simulation_started := true }

/-- A 4-node state with one waiting job and every node asleep, to exercise
the fatal branch of `try_schedule_jobs`. -/
def stateC8 : SchedulerState :=
  { initState 4 with
    waiting_jobs := [{ id := 5, requested_resources := 1 }]
    pc := ⟨List.range 4, fun _ => NodeState.SLEEPING, fun _ => 0⟩
    simulation_started := true }

/-! ### Helper lemmas about the node sort and the scheduling pass -/

theorem sortNodes_perm (loads : Nat → Nat) (pool : List Nat) :
    List.Perm (sortNodes loads pool) pool :=
  List.perm_insertionSort (nodeKeyLE loads) pool

theorem sortNodes_sorted (loads : Nat → Nat) (pool : List Nat) :
    List.Sorted (nodeKeyLE loads) (sortNodes loads pool) :=
  List.sorted_insertionSort (nodeKeyLE loads) pool

theorem selectNodes_subset {loads : Nat → Nat} {pool : List Nat} {k n : Nat}
    (h : n ∈ selectNodes loads pool k) : n ∈ pool :=
  ((sortNodes_perm loads pool).mem_iff).mp (List.take_subset k _ h)

theorem scheduleLoop_exec_alloc_mem (jobs : List Job) :
    ∀ (pc : NodePowerController) (loads : Nat → Nat) (rem : List Nat),
      ∀ j ∈ (scheduleLoop pc loads rem jobs).jobs_to_execute,
        ∀ n ∈ j.allocation, n ∈ rem := by
  induction jobs with
  | nil =>
    intro pc loads rem j hj
    simp [scheduleLoop] at hj
  | cons job rest ih =>
    intro pc loads rem j hj n hn
    simp only [scheduleLoop] at hj
    split at hj
    · rcases List.mem_cons.mp hj with hj | hj
      · subst hj
        exact selectNodes_subset hn
      · have := ih _ _ _ j hj n hn
        exact (List.mem_filter.mp this).1
    · exact ih _ _ _ j hj n hn

theorem scheduleLoop_exec_disjoint (jobs : List Job) :
    ∀ (pc : NodePowerController) (loads : Nat → Nat) (rem : List Nat),
      ((scheduleLoop pc loads rem jobs).jobs_to_execute).Pairwise
        (fun a b => ∀ n ∈ a.allocation, n ∉ b.allocation) := by
  induction jobs with
  | nil =>
    intro pc loads rem
    simp [scheduleLoop]
  | cons job rest ih =>
    intro pc loads rem
    simp only [scheduleLoop]
    split
    · refine List.Pairwise.cons ?_ (ih _ _ _)
      intro b hb n hn hnb
      have hmem := scheduleLoop_exec_alloc_mem rest _ _ _ b hb n hnb
      have := (List.mem_filter.mp hmem).2
      simp only [decide_eq_true_eq] at this
      exact this hn
    · exact ih _ _ _

theorem scheduleLoop_waiting_sublist (jobs : List Job) :
    ∀ (pc : NodePowerController) (loads : Nat → Nat) (rem : List Nat),
      List.Sublist (scheduleLoop pc loads rem jobs).new_waiting jobs := by
  induction jobs with
  | nil =>
    intro pc loads rem
    simp [scheduleLoop]
  | cons job rest ih =>
    intro pc loads rem
    simp only [scheduleLoop]
    split
    · exact (ih _ _ _).cons job
    · exact (ih _ _ _).cons₂ job

theorem scheduleLoop_exec_ids (jobs : List Job) :
    ∀ (pc : NodePowerController) (loads : Nat → Nat) (rem : List Nat),
      ∀ j ∈ (scheduleLoop pc loads rem jobs).jobs_to_execute,
        ∃ j0 ∈ jobs, j.id = j0.id := by
  induction jobs with
  | nil =>
    intro pc loads rem j hj
    simp [scheduleLoop] at hj
  | cons job rest ih =>
    intro pc loads rem j hj
    simp only [scheduleLoop] at hj
    split at hj
    · rcases List.mem_cons.mp hj with hj | hj
      · exact ⟨job, List.mem_cons_self _ _, by subst hj; rfl⟩
      · obtain ⟨j0, hj0, hid⟩ := ih _ _ _ j hj
        exact ⟨j0, List.mem_cons_of_mem _ hj0, hid⟩
    · obtain ⟨j0, hj0, hid⟩ := ih _ _ _ j hj
      exact ⟨j0, List.mem_cons_of_mem _ hj0, hid⟩

theorem scheduleLoop_eq_specWalk (jobs : List Job) :
    ∀ (pc : NodePowerController) (loads : Nat → Nat) (rem : List Nat),
      ((scheduleLoop pc loads rem jobs).jobs_to_execute,
       (scheduleLoop pc loads rem jobs).new_waiting) =
        specSkipAheadWalk loads rem jobs := by
  induction jobs with
  | nil =>
    intro pc loads rem
    simp [scheduleLoop, specSkipAheadWalk]
  | cons job rest ih =>
    intro pc loads rem
    simp only [scheduleLoop, specSkipAheadWalk, selectNodes, sortNodes]
    split
    · have h := ih (addSelected pc
        ((List.insertionSort (nodeKeyLE loads) rem).take job.requested_resources))
        (bumpLoads loads
          ((List.insertionSort (nodeKeyLE loads) rem).take job.requested_resources))
        (rem.filter fun n => decide
          (n ∉ (List.insertionSort (nodeKeyLE loads) rem).take job.requested_resources))
      rw [Prod.ext_iff] at h ⊢
      refine ⟨?_, h.2⟩
      exact congrArg
        (List.cons { job with allocation :=
          (List.insertionSort (nodeKeyLE loads) rem).take job.requested_resources })
        h.1
    · have h := ih pc loads rem
      rw [Prod.ext_iff] at h ⊢
      exact ⟨h.1, congrArg (List.cons job) h.2⟩

/-! ### Frame and preservation lemmas for the event handlers -/

theorem jobAbsent_iff (i : Nat) (s : SchedulerState) :
    jobAbsent i s = true ↔
      (∀ j ∈ s.waiting_jobs, j.id ≠ i) ∧ (∀ j ∈ s.running_jobs, j.id ≠ i) := by
  simp [jobAbsent, List.all_eq_true, bne_iff_ne]

theorem try_schedule_some (s s' : SchedulerState) (acts : List Action)
    (h : try_schedule_jobs s = some (s', acts)) :
    s'.nb_resources = s.nb_resources ∧
    s'.simulation_started = s.simulation_started ∧
    (∀ j ∈ s'.waiting_jobs, j ∈ s.waiting_jobs) ∧
    (∀ j ∈ s'.running_jobs, j ∈ s.running_jobs ∨ ∃ j0 ∈ s.waiting_jobs, j.id = j0.id) := by
  simp only [try_schedule_jobs] at h
  split at h
  · rw [Option.some.injEq, Prod.mk.injEq] at h
    obtain ⟨hs, -⟩ := h
    subst hs
    exact ⟨rfl, rfl, fun j hj => hj, fun j hj => Or.inl hj⟩
  · split at h
    · exact absurd h (by simp)
    · rw [Option.some.injEq, Prod.mk.injEq] at h
      obtain ⟨hs, -⟩ := h
      subst hs
      refine ⟨rfl, rfl, ?_, ?_⟩
      · intro j hj
        exact (scheduleLoop_waiting_sublist _ _ _ _).subset hj
      · intro j hj
        rcases List.mem_append.mp hj with hj | hj
        · exact Or.inl hj
        · exact Or.inr (scheduleLoop_exec_ids _ _ _ _ j hj)

theorem onReportEnergyConsumed_frame (s : SchedulerState) (t e : ℚ) :
    (onReportEnergyConsumed s t e).waiting_jobs = s.waiting_jobs ∧
    (onReportEnergyConsumed s t e).running_jobs = s.running_jobs ∧
    (onReportEnergyConsumed s t e).nb_resources = s.nb_resources ∧
    (onReportEnergyConsumed s t e).simulation_started = s.simulation_started := by
  simp only [onReportEnergyConsumed]
  split_ifs <;> simp

theorem onRequestedCall_frame (policy : NodePowerController → NodePowerController)
    (s : SchedulerState) (now : ℚ) :
    (onRequestedCall policy s now).1.waiting_jobs = s.waiting_jobs ∧
    (onRequestedCall policy s now).1.running_jobs = s.running_jobs ∧
    (onRequestedCall policy s now).1.nb_resources = s.nb_resources ∧
    (onRequestedCall policy s now).1.simulation_started = s.simulation_started ∧
    (onRequestedCall policy s now).1.current_power = s.current_power := by
  simp only [onRequestedCall]
  split_ifs <;> simp

theorem onRequestedCall_acts (policy : NodePowerController → NodePowerController)
    (s : SchedulerState) (now : ℚ) :
    (onRequestedCall policy s now).2 =
      (if s.last_power_check + power_check_interval ≤ now
        then [Action.executePowerActions] else [])
      ++ [Action.recordSystemState now s.running_jobs s.waiting_jobs s.current_power]
      ++ (if s.simulation_started ∧ s.running_jobs.isEmpty ∧ s.waiting_jobs.isEmpty
          then []
          else [Action.wakeMeUpAt (now + record_interval)]) := by
  simp only [onRequestedCall]
  split_ifs <;> simp

theorem step_preserves_absent (i : Nat)
    (policy : NodePowerController → NodePowerController) (e : Event)
    (s s' : SchedulerState) (acts : List Action)
    (hA : jobAbsent i s = true)
    (hE : submitsOversizedOnly i s.nb_resources e = true)
    (hstep : step policy s e = some (s', acts)) :
    jobAbsent i s' = true ∧ s'.nb_resources = s.nb_resources := by
  obtain ⟨hW, hR⟩ := (jobAbsent_iff i s).mp hA
  cases e with
  | submit j =>
    simp only [step, onJobSubmission] at hstep
    split at hstep
    · rw [Option.some.injEq, Prod.mk.injEq] at hstep
      obtain ⟨hs, -⟩ := hstep
      subst hs
      exact ⟨(jobAbsent_iff i _).mpr ⟨hW, hR⟩, rfl⟩
    · rename_i hfit
      have hid : j.id ≠ i := by
        simp only [submitsOversizedOnly, Bool.or_eq_true, bne_iff_ne,
          decide_eq_true_eq] at hE
        rcases hE with hE | hE
        · exact hE
        · exact absurd hE hfit
      obtain ⟨h1, h2, h3, h4⟩ := try_schedule_some _ _ _ hstep
      refine ⟨(jobAbsent_iff i _).mpr ⟨?_, ?_⟩, h1⟩
      · intro j' hj'
        rcases List.mem_append.mp (h3 j' hj') with hj' | hj'
        · exact hW j' hj'
        · rw [List.mem_singleton.mp hj']; exact hid
      · intro j' hj'
        rcases h4 j' hj' with hj' | ⟨j0, hj0, hjid⟩
        · exact hR j' hj'
        · rcases List.mem_append.mp hj0 with hj0 | hj0
          · rw [hjid]; exact hW j0 hj0
          · rw [hjid, List.mem_singleton.mp hj0]; exact hid
  | complete j =>
    simp only [step, onJobCompletion] at hstep
    obtain ⟨h1, h2, h3, h4⟩ := try_schedule_some _ _ _ hstep
    have hRs : ∀ j' ∈ (if j ∈ s.running_jobs then
        { s with running_jobs := s.running_jobs.erase j } else s).running_jobs,
        j'.id ≠ i := by
      split
      · intro j' hj'
        exact hR j' (List.erase_subset _ _ hj')
      · exact hR
    refine ⟨(jobAbsent_iff i _).mpr ⟨?_, ?_⟩, ?_⟩
    · intro j' hj'
      have := h3 j' hj'
      split at this <;> exact hW j' this
    · intro j' hj'
      rcases h4 j' hj' with hj' | ⟨j0, hj0, hjid⟩
      · exact hRs j' hj'
      · rw [hjid]
        split at hj0 <;> exact hW j0 hj0
    · rw [h1]; split <;> rfl
  | energyReport t c =>
    simp only [step, Option.some.injEq, Prod.mk.injEq] at hstep
    obtain ⟨hs, -⟩ := hstep
    subst hs
    obtain ⟨f1, f2, f3, -⟩ := onReportEnergyConsumed_frame s t c
    exact ⟨(jobAbsent_iff i _).mpr ⟨f1 ▸ hW, f2 ▸ hR⟩, f3⟩
  | requestedCall t =>
    simp only [step, Option.some.injEq] at hstep
    obtain ⟨f1, f2, f3, -⟩ := onRequestedCall_frame policy s t
    have hs : (onRequestedCall policy s t).1 = s' := by rw [hstep]
    rw [← hs]
    refine ⟨(jobAbsent_iff i _).mpr ⟨?_, ?_⟩, f3⟩
    · rw [f1]; exact hW
    · rw [f2]; exact hR

theorem run_preserves_absent (i : Nat)
    (policy : NodePowerController → NodePowerController) (events : List Event) :
    ∀ s s' : SchedulerState, jobAbsent i s = true →
      events.all (submitsOversizedOnly i s.nb_resources) = true →
      run policy s events = some s' → jobAbsent i s' = true := by
  induction events with
  | nil =>
    intro s s' h _ hr
    simp only [run, Option.some.injEq] at hr
    exact hr ▸ h
  | cons e es ih =>
    intro s s' h hall hr
    rw [List.all_cons, Bool.and_eq_true] at hall
    rw [run] at hr
    cases hstep : step policy s e with
    | none => rw [hstep] at hr; exact absurd hr (by simp)
    | some p =>
      rw [hstep] at hr
      obtain ⟨h1, h2⟩ :=
        step_preserves_absent i policy e s p.1 p.2 h hall.1 (by rw [hstep])
      exact ih p.1 s' h1 (by rw [h2]; exact hall.2) hr

theorem try_schedule_cases (s : SchedulerState) :
    try_schedule_jobs s = some (s, []) ∨
    try_schedule_jobs s = none ∨
    try_schedule_jobs s = some ({ s with
        pc := (scheduleLoop s.pc s.pc.GetNodeJobCount s.pc.GetAvailableNodes s.waiting_jobs).pc
        waiting_jobs :=
          (scheduleLoop s.pc s.pc.GetNodeJobCount s.pc.GetAvailableNodes s.waiting_jobs).new_waiting
        running_jobs := s.running_jobs ++
          (scheduleLoop s.pc s.pc.GetNodeJobCount s.pc.GetAvailableNodes s.waiting_jobs).jobs_to_execute },
      if (scheduleLoop s.pc s.pc.GetNodeJobCount s.pc.GetAvailableNodes s.waiting_jobs).jobs_to_execute.isEmpty
      then []
      else [Action.executeJobs
        (scheduleLoop s.pc s.pc.GetNodeJobCount s.pc.GetAvailableNodes s.waiting_jobs).jobs_to_execute]) := by
  simp only [try_schedule_jobs]
  split
  · exact Or.inl rfl
  · split
    · exact Or.inr (Or.inl rfl)
    · exact Or.inr (Or.inr rfl)

/-! ### Claim theorems -/

/-- C1, counterexample to the claim as stated: in the §8 scenario on the
4-node cluster, after submitting A (needs 2) and then B (needs 3), B does
*not* stay waiting — since computing nodes remain available
(`GetAvailableNodes` returns COMPUTING and IDLE nodes), B sees 4 available
nodes and is allocated the least-loaded ones {2, 3, 0}, overlapping A. -/
theorem C1_skip_ahead_counterexample :
    ((run id (initState 4) [Event.submit jobA, Event.submit jobB]).map fun s =>
      (s.waiting_jobs.map Job.id, s.running_jobs.map fun j => (j.id, j.allocation))) =
      some ([], [(1, [0, 1]), (2, [2, 3, 0])]) := by
  rfl

/-- C1 (amended): the placement algorithm does perform single-pass
skip-ahead scheduling — the source's pass coincides with the spec-worded
walk (every job whose request fits in the remaining pool is allocated and
moved to the execute batch, every other job is retained, with relative
order preserved: the retained queue is a sublist of the input queue) —
but in the §8 scenario B does not remain waiting: A gets {0, 1}, B is
allocated {2, 3, 0} (computing nodes count as available), and C then gets
{1}. -/
theorem C1_skip_ahead_amended :
    (∀ (pc : NodePowerController) (loads : Nat → Nat) (pool : List Nat) (jobs : List Job),
      ((scheduleLoop pc loads pool jobs).jobs_to_execute,
       (scheduleLoop pc loads pool jobs).new_waiting) = specSkipAheadWalk loads pool jobs
      ∧ List.Sublist (scheduleLoop pc loads pool jobs).new_waiting jobs)
    ∧ ((run id (initState 4)
          [Event.submit jobA, Event.submit jobB, Event.submit jobC]).map fun s =>
        (s.waiting_jobs.map Job.id, s.running_jobs.map fun j => (j.id, j.allocation))) =
      some ([], [(1, [0, 1]), (2, [2, 3, 0]), (3, [1])]) := by
  refine ⟨fun pc loads pool jobs =>
    ⟨scheduleLoop_eq_specWalk jobs pc loads pool,
     scheduleLoop_waiting_sublist jobs pc loads pool⟩, ?_⟩
  rfl

/-- C1, witness: the amended pass property instantiated on the all-idle
4-node pool with job A alone. -/
theorem C1_skip_ahead_amended_witness :
    ((scheduleLoop (initState 4).pc (fun _ => 0) [0, 1, 2, 3] [jobA]).jobs_to_execute,
     (scheduleLoop (initState 4).pc (fun _ => 0) [0, 1, 2, 3] [jobA]).new_waiting) =
      specSkipAheadWalk (fun _ => 0) [0, 1, 2, 3] [jobA] :=
  (C1_skip_ahead_amended.1 (initState 4).pc (fun _ => 0) [0, 1, 2, 3] [jobA]).1

/-- C2, counterexample to the claim as stated: the reachable state after
submitting A (needs 2) and B (needs 3) on the all-idle 4-node cluster has
two distinct running jobs whose allocations both contain node 0. -/
theorem C2_disjoint_counterexample :
    ((run id (initState 4) [Event.submit jobA, Event.submit jobB]).map fun s =>
      s.running_jobs.map fun j => (j.id, j.allocation)) =
      some [(1, [0, 1]), (2, [2, 3, 0])]
    ∧ (0 : Nat) ∈ [0, 1] ∧ (0 : Nat) ∈ [2, 3, 0] :=
  ⟨rfl, by decide, by decide⟩

/-- C2 (amended): allocations are pairwise disjoint only among the jobs
scheduled in one and the same scheduling pass (each selected node leaves
the shrinking pool); across passes, running jobs may share nodes because
computing nodes remain available. -/
theorem C2_disjoint_amended :
    ∀ s : SchedulerState, (try_schedule_jobs s).elim True fun p =>
      (p.1.running_jobs.drop s.running_jobs.length).Pairwise
        fun a b => a.allocation.Disjoint b.allocation := by
  intro s
  rcases try_schedule_cases s with h | h | h <;> rw [h]
  · simp [List.drop_length]
  · simp
  · simp only [Option.elim]
    rw [List.drop_left]
    exact (scheduleLoop_exec_disjoint _ _ _ _).imp fun h a ha => h a ha

/-- C2, witness: the amended per-pass disjointness instantiated at the
4-node initial state. -/
theorem C2_disjoint_amended_witness :
    (try_schedule_jobs (initState 4)).elim True (fun p =>
      (p.1.running_jobs.drop (initState 4).running_jobs.length).Pairwise
        fun a b => a.allocation.Disjoint b.allocation) :=
  C2_disjoint_amended (initState 4)

/-- C10: within a single call to `try_schedule_jobs`, the allocations
assigned in that pass are pairwise disjoint and drawn only from the nodes
reported available at the start of the pass. -/
theorem C10_pass_allocation :
    ∀ s : SchedulerState, (try_schedule_jobs s).elim True fun p =>
      ((p.1.running_jobs.drop s.running_jobs.length).Pairwise
        fun a b => ∀ n ∈ a.allocation, n ∉ b.allocation)
      ∧ ∀ j ∈ p.1.running_jobs.drop s.running_jobs.length,
          ∀ n ∈ j.allocation, n ∈ s.pc.GetAvailableNodes := by
  intro s
  rcases try_schedule_cases s with h | h | h <;> rw [h]
  · simp [List.drop_length]
  · simp
  · simp only [Option.elim]
    rw [List.drop_left]
    exact ⟨scheduleLoop_exec_disjoint _ _ _ _,
      fun j hj n hn => scheduleLoop_exec_alloc_mem _ _ _ _ j hj n hn⟩

/-- C10, witness: the pass property instantiated at `stateC6` (one job
running on node 0, empty queue). -/
theorem C10_pass_allocation_witness :
    (try_schedule_jobs stateC6).elim True (fun p =>
      ((p.1.running_jobs.drop stateC6.running_jobs.length).Pairwise
        fun a b => ∀ n ∈ a.allocation, n ∉ b.allocation)
      ∧ ∀ j ∈ p.1.running_jobs.drop stateC6.running_jobs.length,
          ∀ n ∈ j.allocation, n ∈ stateC6.pc.GetAvailableNodes) :=
  C10_pass_allocation stateC6

/-- C8: `try_schedule_jobs` is a no-op (same state, no engine calls) when
the waiting queue is empty; when jobs are waiting but no node is
available, the pass aborts fatally (`assert False`); and the fatal abort
can only be reached when at least one job is waiting. -/
theorem C8_schedule_guard :
    ∀ s : SchedulerState,
      (s.waiting_jobs = [] → try_schedule_jobs s = some (s, []))
      ∧ (s.waiting_jobs ≠ [] → s.pc.GetAvailableNodes = [] →
          try_schedule_jobs s = none)
      ∧ (try_schedule_jobs s = none → s.waiting_jobs ≠ []) := by
  intro s
  refine ⟨?_, ?_, ?_⟩
  · intro h
    simp [try_schedule_jobs, h]
  · intro h1 h2
    simp [try_schedule_jobs, h1, h2]
  · intro h hw
    simp [try_schedule_jobs, hw] at h

/-- C8, witness: on the all-idle 4-node initial state (empty queue) the
pass is a no-op; on `stateC8` (one waiting job, every node asleep) it hits
the fatal assertion. -/
theorem C8_schedule_guard_witness :
    try_schedule_jobs (initState 4) = some (initState 4, [])
    ∧ try_schedule_jobs stateC8 = none :=
  ⟨(C8_schedule_guard (initState 4)).1 rfl,
   (C8_schedule_guard stateC8).2.1 (by decide) rfl⟩

/-- C3: admission control.  An oversized job is rejected synchronously at
submission (the only state change is the `simulation_started` flag; the
only engine call is `reject_jobs`, so no scheduling pass runs for it); an
admissible job is appended at the tail of the waiting queue and a
scheduling pass is invoked; and along any event trace in which every
submission of a job with id `i` is oversized, no job with id `i` ever
appears in the waiting queue or the running set. -/
theorem C3_admission_control :
    (∀ (s : SchedulerState) (j : Job), s.nb_resources < j.requested_resources →
      onJobSubmission s j =
        some ({ s with simulation_started := true }, [Action.rejectJobs [j]]))
    ∧ (∀ (s : SchedulerState) (j : Job), ¬ s.nb_resources < j.requested_resources →
      onJobSubmission s j = try_schedule_jobs
        { s with simulation_started := true, waiting_jobs := s.waiting_jobs ++ [j] })
    ∧ (∀ (i : Nat) (policy : NodePowerController → NodePowerController)
        (events : List Event) (s s' : SchedulerState),
      jobAbsent i s = true →
      events.all (submitsOversizedOnly i s.nb_resources) = true →
      run policy s events = some s' → jobAbsent i s' = true) := by
  refine ⟨?_, ?_, ?_⟩
  · intro s j h
    simp [onJobSubmission, h]
  · intro s j h
    simp [onJobSubmission, h]
  · intro i policy events s s' h1 h2 h3
    exact run_preserves_absent i policy events s s' h1 h2 h3

/-- C3, witness: on the 4-node initial state, the oversized `jobD` (needs
10) is rejected without queueing; the admissible `jobC` is appended and
scheduled; and after the trace that submits only `jobD`, no job with id 9
is waiting or running. -/
theorem C3_admission_control_witness :
    onJobSubmission (initState 4) jobD =
      some ({ initState 4 with simulation_started := true },
        [Action.rejectJobs [jobD]])
    ∧ onJobSubmission (initState 4) jobC =
      try_schedule_jobs
        { initState 4 with simulation_started := true, waiting_jobs := [jobC] }
    ∧ jobAbsent 9 { initState 4 with simulation_started := true } = true :=
  ⟨C3_admission_control.1 (initState 4) jobD (by decide),
   C3_admission_control.2.1 (initState 4) jobC (by decide),
   C3_admission_control.2.2 9 id [Event.submit jobD] (initState 4)
     { initState 4 with simulation_started := true } (by decide) (by decide) rfl⟩

/-- C4: tie-break determinism.  The pool a placed job draws from is sorted
by `(load, node_id)` ascending (the sort is a permutation of the pool and
is sorted for that order) and the first `requested_resources` nodes are
taken; whenever two candidate nodes have equal load and the higher-id one
is selected, the lower-id one is selected too; and the pass outcome is a
deterministic function of the queue, the available nodes and the loads
alone — in particular it does not depend on the rest of the power
controller state (the embedding is functional, so identical event traces
trivially yield identical allocation traces). -/
theorem C4_tie_break_determinism :
    (∀ (loads : Nat → Nat) (pool : List Nat),
      List.Perm (sortNodes loads pool) pool
      ∧ List.Sorted (nodeKeyLE loads) (sortNodes loads pool))
    ∧ (∀ (loads : Nat → Nat) (pool : List Nat) (k a b : Nat),
      a ∈ pool → b ∈ selectNodes loads pool k → loads a = loads b → a < b →
      a ∈ selectNodes loads pool k)
    ∧ (∀ (pc pc' : NodePowerController) (loads : Nat → Nat) (pool : List Nat)
        (jobs : List Job),
      (scheduleLoop pc loads pool jobs).jobs_to_execute =
        (scheduleLoop pc' loads pool jobs).jobs_to_execute
      ∧ (scheduleLoop pc loads pool jobs).new_waiting =
        (scheduleLoop pc' loads pool jobs).new_waiting) := by
  refine ⟨?_, ?_, ?_⟩
  · intro loads pool
    exact ⟨sortNodes_perm loads pool, sortNodes_sorted loads pool⟩
  · intro loads pool k a b ha hb hload hab
    simp only [selectNodes] at hb ⊢
    by_contra hna
    have has : a ∈ sortNodes loads pool := (sortNodes_perm loads pool).mem_iff.mpr ha
    rw [← List.take_append_drop k (sortNodes loads pool)] at has
    rcases List.mem_append.mp has with h | h
    · exact hna h
    · have hsorted := sortNodes_sorted loads pool
      have hsplit : sortNodes loads pool =
          (sortNodes loads pool).take k ++ (sortNodes loads pool).drop k :=
        (List.take_append_drop k _).symm
      rw [hsplit] at hsorted
      have hrel := (List.pairwise_append.mp hsorted).2.2 b hb a h
      simp only [nodeKeyLE] at hrel
      rcases hrel with hlt | ⟨heq, hle⟩
      · omega
      · omega
  · intro pc pc' loads pool jobs
    have h1 := scheduleLoop_eq_specWalk jobs pc loads pool
    have h2 := scheduleLoop_eq_specWalk jobs pc' loads pool
    rw [← h2] at h1
    rw [Prod.ext_iff] at h1
    exact ⟨h1.1, h1.2⟩

/-- C4, witness: on the pool `[2, 1]` with all loads equal, selecting two
nodes selects node 1 (the lower id) as well as node 2. -/
theorem C4_tie_break_determinism_witness :
    (1 : Nat) ∈ selectNodes (fun _ => 0) [2, 1] 2 :=
  C4_tie_break_determinism.2.1 (fun _ => 0) [2, 1] 2 1 2
    (by decide) (by decide) rfl (by decide)

/-- C5: code evaluation at the input named by the claim.  From the initial
state, a first energy report at (t = 0, E = 0) and a second at
(t = 60, E = 600) leave `current_power` at 0, not 10: the code's
"not the first update" test is `last_energy_time > 0`, which a first
report at time 0 does not satisfy, so the second report is again treated
as a first report (it does update the baseline to E = 600, t = 60). -/
theorem C5_power_metering_code_eval :
    (onReportEnergyConsumed (onReportEnergyConsumed (initState 4) 0 0) 60 600).current_power = 0
    ∧ (onReportEnergyConsumed (onReportEnergyConsumed (initState 4) 0 0) 60 600).last_energy = 600
    ∧ (onReportEnergyConsumed (onReportEnergyConsumed (initState 4) 0 0) 60 600).last_energy_time = 60
    ∧ (0 : ℚ) ≠ 10 := by
  refine ⟨rfl, rfl, rfl, by norm_num⟩

/-- C6: code evaluation at the failing input.  In `stateC6` the stale job
(id 7, allocation {0}) is not in the running set, yet delivering its
completion event notifies `RemoveJobFromNode(0)` — node 0's job count
drops from 1 to 0 and its state flips to IDLE even though job 2 still
runs there — and a scheduling pass is invoked (here a no-op because the
queue is empty).  The event is indeed non-fatal and leaves the running
set and waiting queue unchanged. -/
theorem C6_stale_completion_code_eval :
    staleJob ∉ stateC6.running_jobs
    ∧ stateC6.pc.jobCount 0 = 1
    ∧ ((onJobCompletion stateC6 staleJob).map fun p =>
        (p.1.running_jobs.map Job.id, p.1.waiting_jobs.map Job.id,
         p.1.pc.jobCount 0, p.1.pc.nodeState 0, p.2)) =
      some ([2], [], 0, NodeState.IDLE, []) := by
  refine ⟨by decide, rfl, rfl⟩

/-- C7: on a periodic tick the handler always emits the system-state
snapshot for that tick; if at least one job has been submitted and both
queues are empty it emits no timer re-arm at all; otherwise it re-arms
the timer for `now + record_interval`. -/
theorem C7_idle_shutdown :
    ∀ (policy : NodePowerController → NodePowerController)
      (s : SchedulerState) (now : ℚ),
      Action.recordSystemState now s.running_jobs s.waiting_jobs s.current_power
          ∈ (onRequestedCall policy s now).2
      ∧ ((s.simulation_started = true ∧ s.running_jobs = [] ∧ s.waiting_jobs = []) →
          ∀ t, Action.wakeMeUpAt t ∉ (onRequestedCall policy s now).2)
      ∧ (¬ (s.simulation_started = true ∧ s.running_jobs = [] ∧ s.waiting_jobs = []) →
          Action.wakeMeUpAt (now + record_interval) ∈ (onRequestedCall policy s now).2) := by
  intro policy s now
  simp only [onRequestedCall]
  split_ifs with h1 h2 h2 <;>
    simp_all [List.isEmpty_iff]

/-- C7, witness: on the started-but-empty 4-node state the tick at time 5
emits no wake-up (in particular not at 65), while on the unstarted initial
state the tick at time 5 re-arms the timer for time 65. -/
theorem C7_idle_shutdown_witness :
    Action.wakeMeUpAt 65 ∉
      (onRequestedCall id { initState 4 with simulation_started := true } 5).2
    ∧ Action.wakeMeUpAt (5 + record_interval) ∈ (onRequestedCall id (initState 4) 5).2 :=
  ⟨(C7_idle_shutdown id { initState 4 with simulation_started := true } 5).2.1
      ⟨rfl, rfl, rfl⟩ 65,
   (C7_idle_shutdown id (initState 4) 5).2.2 (by decide)⟩

/-- C9: every successful `onJobSubmission` leaves `simulation_started`
true — the flag is set before the capacity check, also when the job is
rejected — and consequently, after a run in which the only submission ever
made is the oversized `jobD` (so nothing was ever queued or run), the next
periodic tick performs idle shutdown: it emits no timer re-arm. -/
theorem C9_started_flag :
    (∀ (s : SchedulerState) (j : Job) (p : SchedulerState × List Action),
      onJobSubmission s j = some p → p.1.simulation_started = true)
    ∧ run id (initState 4) [Event.submit jobD] =
        some { initState 4 with simulation_started := true }
    ∧ ({ initState 4 with simulation_started := true } : SchedulerState).waiting_jobs = []
    ∧ ({ initState 4 with simulation_started := true } : SchedulerState).running_jobs = []
    ∧ ∀ t, Action.wakeMeUpAt t ∉
        (onRequestedCall id { initState 4 with simulation_started := true } 5).2 := by
  refine ⟨?_, rfl, rfl, rfl, ?_⟩
  · intro s j p h
    simp only [onJobSubmission] at h
    split at h
    · rw [Option.some.injEq] at h
      rw [← h]
    · obtain ⟨-, h2, -, -⟩ := try_schedule_some _ p.1 p.2 h
      exact h2.trans rfl
  · intro t h
    rw [onRequestedCall_acts] at h
    simp only [List.append_assoc, List.mem_append, List.mem_singleton] at h
    rcases h with h | h | h
    · split at h <;> simp_all
    · simp at h
    · split at h <;> simp_all [initState]

/-- C9, witness: instantiating the flag property at the rejected oversized
submission on the initial state. -/
theorem C9_started_flag_witness :
    ({ initState 4 with simulation_started := true } : SchedulerState).simulation_started = true :=
  C9_started_flag.1 (initState 4) jobD
    ({ initState 4 with simulation_started := true }, [Action.rejectJobs [jobD]]) rfl

end GreenEnergy
